import Mathlib

/-!
Verification of the aldo work-hours/invoice tracker against its source.

Shallow embedding of the Python sources:
  src/aldo/storage.py  (class WorkHoursStorage)
  src/aldo/config.py   (class Config)
  src/aldo/core.py     (the generate-invoice and confirm commands)
  src/aldo/invoice.py  (class InvoiceGenerator, state-relevant part)

Modelling conventions, used consistently throughout:
* Calendar dates are modelled as natural numbers (absolute day indices).
  The sources store dates as ISO `YYYY-MM-DD` strings and compare them as
  strings; for valid four-digit-year ISO dates, string order, date order
  and day-index order coincide, and `+ timedelta(days=n)` is `+ n`.
* `datetime.now().date()` is passed in explicitly as a `today` parameter
  (a run of a command is assumed to happen within one calendar day).
* Python floats for hours are modelled as rationals; no claim depends on
  float rounding.
* The Python builtin `str` on an int is modelled by `pyIntStr`, and the
  builtin `int` on a string by `pyToInt?` (`none` = `ValueError`).
  The whitespace/underscore tolerance of the builtin parser is not
  modelled; no identifier in the claims involves either.
* JSON persistence (`save_data`/`load_data`) is modelled by explicit
  state passing: every mutating operation returns the new state.
-/

/-- Absolute day index standing for a calendar date (see header). -/
abbrev Date := Nat

/-! ### Decimal strings: the Python builtins str and int on integers -/

/-- Little-endian decimal digits of `n`, with explicit structural fuel so
that the definition reduces in the kernel.  `natDigits` below instantiates
the fuel with `n` itself, which is always sufficient. -/
def natDigitsAux : Nat → Nat → List Nat
  | _, 0 => []
  | 0, _ + 1 => []
  | fuel + 1, n + 1 => ((n + 1) % 10) :: natDigitsAux fuel ((n + 1) / 10)

/-- Little-endian decimal digits of `n` (empty for `0`). -/
def natDigits (n : Nat) : List Nat := natDigitsAux n n

/-- Evaluate little-endian decimal digits back to a number. -/
def evalDigits : List Nat → Nat
  | [] => 0
  | d :: ds => d + 10 * evalDigits ds

theorem evalDigits_natDigitsAux : ∀ (fuel n : Nat), n ≤ fuel →
    evalDigits (natDigitsAux fuel n) = n := by
  intro fuel
  induction fuel with
  | zero => intro n h; interval_cases n; rfl
  | succ f ih =>
    intro n h
    match n with
    | 0 => rfl
    | n + 1 =>
      have hdiv : (n + 1) / 10 < n + 1 := Nat.div_lt_self (Nat.succ_pos n) (by omega)
      have : (n + 1) / 10 ≤ f := by omega
      simp only [natDigitsAux, evalDigits, ih _ this]
      omega

theorem evalDigits_natDigits (n : Nat) : evalDigits (natDigits n) = n :=
  evalDigits_natDigitsAux n n (Nat.le_refl n)

theorem natDigits_inj {a b : Nat} (h : natDigits a = natDigits b) : a = b := by
  have := evalDigits_natDigits a
  rw [h, evalDigits_natDigits] at this
  omega

theorem natDigitsAux_lt : ∀ (fuel n : Nat), ∀ d ∈ natDigitsAux fuel n, d < 10 := by
  intro fuel
  induction fuel with
  | zero => intro n d hd; cases n <;> simp [natDigitsAux] at hd
  | succ f ih =>
    intro n d hd
    match n with
    | 0 => simp [natDigitsAux] at hd
    | n + 1 =>
      simp only [natDigitsAux, List.mem_cons] at hd
      rcases hd with h | h
      · omega
      · exact ih _ _ h

theorem natDigits_lt (n : Nat) : ∀ d ∈ natDigits n, d < 10 :=
  natDigitsAux_lt n n

/-- The character for a single decimal digit. -/
def digitChr (d : Nat) : Char := Char.ofNat (48 + d)

theorem digitChr_inj {x y : Nat} (hx : x < 10) (hy : y < 10)
    (h : digitChr x = digitChr y) : x = y := by
  interval_cases x <;> interval_cases y <;> simp_all <;> revert h <;> decide

theorem digitChr_ne_dash {d : Nat} (hd : d < 10) : digitChr d ≠ Char.ofNat 45 := by
  interval_cases d <;> decide

theorem map_digitChr_inj : ∀ {l₁ l₂ : List Nat}, (∀ d ∈ l₁, d < 10) →
    (∀ d ∈ l₂, d < 10) → l₁.map digitChr = l₂.map digitChr → l₁ = l₂ := by
  intro l₁
  induction l₁ with
  | nil => intro l₂ _ _ h; cases l₂ <;> simp_all
  | cons x xs ih =>
    intro l₂ h₁ h₂ h
    cases l₂ with
    | nil => simp at h
    | cons y ys =>
      simp only [List.map_cons, List.cons.injEq] at h
      have hx : x = y := digitChr_inj (h₁ x (by simp)) (h₂ y (by simp)) h.1
      have : xs = ys :=
        ih (fun d hd => h₁ d (by simp [hd])) (fun d hd => h₂ d (by simp [hd])) h.2
      simp [hx, this]

/-- The characters of the Python decimal rendering of a natural number. -/
def pyNatChars (n : Nat) : List Char :=
  if n = 0 then [Char.ofNat 48] else ((natDigits n).map digitChr).reverse

theorem natDigits_single_zero {b : Nat}
    (h : (natDigits b).map digitChr = [Char.ofNat 48]) : b = 0 := by
  match hd : natDigits b with
  | [] => rw [hd] at h; simp at h
  | [d] =>
    rw [hd] at h
    simp only [List.map_cons, List.map_nil, List.cons.injEq, and_true] at h
    have hdlt : d < 10 := natDigits_lt b d (by rw [hd]; simp)
    have hd0 : d = 0 := digitChr_inj hdlt (by omega) (by simpa [digitChr] using h)
    have he := evalDigits_natDigits b
    rw [hd, hd0] at he
    simpa [evalDigits] using he.symm
  | d :: d' :: rest => rw [hd] at h; simp at h

theorem pyNatChars_inj {a b : Nat} (h : pyNatChars a = pyNatChars b) : a = b := by
  unfold pyNatChars at h
  by_cases ha : a = 0 <;> by_cases hb : b = 0
  · omega
  · exfalso
    simp only [ha, if_pos rfl, if_neg hb] at h
    have h' : (natDigits b).map digitChr = [Char.ofNat 48] := by
      have := congrArg List.reverse h
      simpa using this.symm
    exact hb (natDigits_single_zero h')
  · exfalso
    simp only [hb, if_pos rfl, if_neg ha] at h
    have h' : (natDigits a).map digitChr = [Char.ofNat 48] := by
      have := congrArg List.reverse h
      simpa using this
    exact ha (natDigits_single_zero h')
  · simp only [if_neg ha, if_neg hb] at h
    have h' : (natDigits a).map digitChr = (natDigits b).map digitChr := by
      have := congrArg List.reverse h
      simpa using this
    exact natDigits_inj (map_digitChr_inj (natDigits_lt a) (natDigits_lt b) h')

theorem pyNatChars_no_dash (n : Nat) : ∀ c ∈ pyNatChars n, c ≠ Char.ofNat 45 := by
  intro c hc
  unfold pyNatChars at hc
  by_cases hn : n = 0
  · simp [hn] at hc
    subst hc
    decide
  · simp [hn, List.mem_reverse, List.mem_map] at hc
    obtain ⟨d, hd, rfl⟩ := hc
    exact digitChr_ne_dash (natDigits_lt n d hd)

/-- Models the Python builtin `str` applied to an int (decimal, with a
leading minus sign for negative values). -/
def pyIntStr (n : Int) : String :=
  String.mk (if n < 0 then Char.ofNat 45 :: pyNatChars n.natAbs else pyNatChars n.natAbs)

theorem pyIntStr_inj {a b : Int} (h : pyIntStr a = pyIntStr b) : a = b := by
  unfold pyIntStr at h
  have h' := congrArg String.data h
  simp only at h'
  by_cases ha : a < 0 <;> by_cases hb : b < 0
  · simp only [if_pos ha, if_pos hb, List.cons.injEq, true_and] at h'
    have := pyNatChars_inj h'
    omega
  · exfalso
    simp only [if_pos ha, if_neg hb] at h'
    have : Char.ofNat 45 ∈ pyNatChars b.natAbs := by
      rw [← h']; simp
    exact pyNatChars_no_dash _ _ this rfl
  · exfalso
    simp only [if_neg ha, if_pos hb] at h'
    have : Char.ofNat 45 ∈ pyNatChars a.natAbs := by
      rw [h']; simp
    exact pyNatChars_no_dash _ _ this rfl
  · simp only [if_neg ha, if_neg hb] at h'
    have := pyNatChars_inj h'
    omega

/-! ### Parsing and prefix helpers used by the storage layer -/

/-- Character-list test that one list is an initial segment of another. -/
def listIsPref : List Char → List Char → Bool
  | [], _ => true
  | _ :: _, [] => false
  | p :: ps, c :: cs => p == c && listIsPref ps cs

/-- Models the Python `s.startswith(pat)` test. -/
def pyStartsWith (s pat : String) : Bool := listIsPref pat.data s.data

/-- Models the Python slice `s[len(pat):]`. -/
def strDropLen (s pat : String) : String := String.mk (s.data.drop pat.data.length)

def digitVal? (c : Char) : Option Nat :=
  if Char.ofNat 48 ≤ c ∧ c ≤ Char.ofNat 57 then some (c.toNat - 48) else none

def parseDigitsAcc : List Char → Nat → Option Nat
  | [], acc => some acc
  | c :: cs, acc =>
    match digitVal? c with
    | some d => parseDigitsAcc cs (acc * 10 + d)
    | none => none

def parseNatDigits : List Char → Option Nat
  | [] => none
  | l => parseDigitsAcc l 0

/-- Models the Python builtin `int` applied to a string: an optional sign
followed by at least one decimal digit; `none` models the `ValueError`
raised on any other input (see the header for the modelling caveat about
whitespace and underscores). -/
def pyToInt? (s : String) : Option Int :=
  match s.data with
  | Char.ofNat 45 :: rest => (parseNatDigits rest).map (fun v => -(v : Int))
  | Char.ofNat 43 :: rest => (parseNatDigits rest).map (fun v => (v : Int))
  | l => (parseNatDigits l).map (fun v => (v : Int))

/-! ### Data model (the persisted aldo_data record and the configuration)

From src/aldo/storage.py: `aldo_data` holds `last_confirmed_invoice`,
`last_unconfirmed_invoice`, `confirmed_invoices` (a JSON object mapping
the decimal invoice number to its record) and `work_entries`.
Invoice numbers are stored as decimal strings, dates as ISO strings
(modelled as `Date`, see header). -/

structure WorkEntry where
  date : Date
  hours : ℚ
  description : String
  timestamp : String
  deriving DecidableEq

structure InvoiceRec where
  invoice_number : String
  start_date : Date
  end_date : Date
  deriving DecidableEq

structure AldoData where
  last_confirmed_invoice : Option InvoiceRec
  last_unconfirmed_invoice : Option InvoiceRec
  confirmed_invoices : List (String × InvoiceRec)
  work_entries : List WorkEntry
  deriving DecidableEq

/-- The configuration fields consulted by the embedded operations
(src/aldo/config.py DEFAULT_CONFIG): `pfx` is the invoice display
prefix `config['invoice']['prefix']`, `next_number` is
`config['invoice']['next_number']`, `hourly_rate` is
`config['payment']['hourly_rate']`. -/
structure Config where
  pfx : String
  next_number : Int
  hourly_rate : ℚ
  deriving DecidableEq

/-- A Python invoice identifier: the sources pass either a string or an
int (duck typing via isinstance checks). -/
inductive Ident where
  | str (s : String)
  | num (n : Int)
  deriving DecidableEq

/-- Python dict lookup (first matching key; keys are unique in use). -/
def dictGet? (l : List (String × InvoiceRec)) (k : String) : Option InvoiceRec :=
  (l.find? (fun p => p.1 == k)).map (fun p => p.2)

/-- Python dict assignment: overwrite the existing key in place, else
append (insertion order is preserved, as in Python). -/
def dictInsert (l : List (String × InvoiceRec)) (k : String) (v : InvoiceRec) :
    List (String × InvoiceRec) :=
  if l.any (fun p => p.1 == k) then
    l.map (fun p => if p.1 == k then (k, v) else p)
  else l ++ [(k, v)]

/-! ### WorkHoursStorage operations (src/aldo/storage.py) -/

def mkWorkEntry (date : Date) (hours : ℚ) (description timestamp : String) :
    WorkEntry :=
  ⟨date, hours, description, timestamp⟩

/-- storage.py log_work (lines 64-94): delete every existing entry whose
date equals the new date, append the new entry, persist, return it.
`now_ts` models `datetime.now().isoformat()`. -/
def log_work (d : AldoData) (date : Date) (hours : ℚ)
    (description now_ts : String) : WorkEntry × AldoData :=
  let kept := d.work_entries.filter (fun e => e.date != date)
  let entry := mkWorkEntry date hours description now_ts
  (entry, { d with work_entries := kept ++ [entry] })

/-- Sort order used by storage.py get_work_entries:
`sorted(filtered_entries, key=lambda x: x["date"])`. -/
def dateLe (a b : WorkEntry) : Prop := a.date ≤ b.date

instance : DecidableRel dateLe := fun a b => Nat.decLe a.date b.date

instance : IsTotal WorkEntry dateLe := ⟨fun a b => Nat.le_total a.date b.date⟩

instance : IsTrans WorkEntry dateLe := ⟨fun _ _ _ h h₂ => Nat.le_trans h h₂⟩

/-- storage.py get_work_entries (lines 96-123) called with date objects:
keep the entries with start ≤ date ≤ end (ISO-string comparison in the
source, day-index comparison here, see header) and sort them by date.
Python `sorted` is a stable sort on the date key; a stable sort by a
fixed key is extensionally unique, realised here by insertion sort. -/
def get_work_entries (d : AldoData) (start_date end_date : Date) :
    List WorkEntry :=
  List.insertionSort dateLe
    (d.work_entries.filter
      (fun e => decide (start_date ≤ e.date) && decide (e.date ≤ end_date)))

/-- storage.py get_total_hours (lines 162-164). -/
def get_total_hours (entries : List WorkEntry) : ℚ :=
  entries.foldl (fun acc e => acc + e.hours) 0

/-- storage.py get_earliest_entry_date (lines 166-176): date of the
`min` entry by date (`None` when no entries exist). -/
def get_earliest_entry_date (d : AldoData) : Option Date :=
  match d.work_entries with
  | [] => none
  | e :: rest => some (rest.foldl (fun m x => if x.date < m then x.date else m) e.date)

/-- storage.py get_next_invoice_number (lines 178-185):
`int(last_confirmed['invoice_number']) + 10` when a confirmed invoice
exists, else the base constant 391.  `none` models the uncaught
`ValueError` when the stored number string does not parse. -/
def get_next_invoice_number (d : AldoData) : Option Int :=
  match d.last_confirmed_invoice with
  | some lc => (pyToInt? lc.invoice_number).map (fun k => k + 10)
  | none => some 391

/-- storage.py store_unconfirmed_invoice (lines 187-216): strip the
display prefix when a config is supplied and the identifier is a string
carrying it, otherwise take `str(invoice_number)`; unconditionally
overwrite `last_unconfirmed_invoice` and persist. -/
def store_unconfirmed_invoice (d : AldoData) (ident : Ident)
    (start_date end_date : Date) (cfg? : Option Config) : AldoData :=
  let numeric_part : String :=
    match cfg?, ident with
    | some cfg, .str s =>
      if pyStartsWith s cfg.pfx then strDropLen s cfg.pfx else s
    | some _, .num n => pyIntStr n
    | none, .str s => s
    | none, .num n => pyIntStr n
  { d with last_unconfirmed_invoice := some ⟨numeric_part, start_date, end_date⟩ }

/-- storage.py get_last_unconfirmed_invoice (lines 218-233). -/
def get_last_unconfirmed_invoice (d : AldoData) : Option InvoiceRec :=
  d.last_unconfirmed_invoice

/-- storage.py get_last_confirmed_invoice (lines 289-304). -/
def get_last_confirmed_invoice (d : AldoData) : Option InvoiceRec :=
  d.last_confirmed_invoice

/-- Outcome of parsing an invoice identifier, the snippet duplicated at
storage.py lines 251-259 (confirm_invoice) and 317-325
(get_invoice_by_number): strings carrying the display prefix are
stripped and parsed by `int` with the `ValueError` left uncaught
(`valueErr`); other identifiers go through `int(...)` with
`(ValueError, TypeError)` caught (`badForm` models the caught case). -/
inductive ParsedId where
  | ok (k : Int)
  | valueErr
  | badForm
  deriving DecidableEq

def parse_invoice_ident (cfg : Config) : Ident → ParsedId
  | .str s =>
    if pyStartsWith s cfg.pfx then
      match pyToInt? (strDropLen s cfg.pfx) with
      | some k => .ok k
      | none => .valueErr
    else
      match pyToInt? s with
      | some k => .ok k
      | none => .badForm
  | .num n => .ok n

/-- Result of storage.py confirm_invoice: `noDraft` models the raised
"No unconfirmed invoice found" exception, `valueErr` the uncaught
`ValueError` on a malformed prefixed string, `returnedFalse` the bare
`return False`, `mismatch expected got` the raised "Invoice number
mismatch" exception, and `ok` the `return True` with the record that
was just confirmed. -/
inductive ConfirmRes where
  | noDraft
  | valueErr
  | returnedFalse
  | mismatch (expected got : String)
  | ok (rec : InvoiceRec)
  deriving DecidableEq

/-- storage.py confirm_invoice (lines 235-287).  All failure outcomes
leave the state unchanged (the source mutates nothing before its checks
pass); success stores the draft record under its number in
`confirmed_invoices`, points `last_confirmed_invoice` at it, clears
`last_unconfirmed_invoice`, and persists. -/
def confirm_invoice (d : AldoData) (ident : Ident) (cfg : Config) :
    ConfirmRes × AldoData :=
  match d.last_unconfirmed_invoice with
  | none => (.noDraft, d)
  | some u =>
    match parse_invoice_ident cfg ident with
    | .valueErr => (.valueErr, d)
    | .badForm => (.returnedFalse, d)
    | .ok k =>
      if pyIntStr k ≠ u.invoice_number then
        (.mismatch u.invoice_number (pyIntStr k), d)
      else
        let confirmedRec : InvoiceRec := ⟨pyIntStr k, u.start_date, u.end_date⟩
        (.ok confirmedRec,
          { d with
              confirmed_invoices :=
                dictInsert d.confirmed_invoices (pyIntStr k) confirmedRec,
              last_confirmed_invoice := some confirmedRec,
              last_unconfirmed_invoice := none })

/-- storage.py get_invoice_by_number (lines 306-340).  `Except.error ()`
models the uncaught `ValueError` on a malformed prefixed string;
otherwise the confirmed-invoices dict is consulted (`none` = not
found). -/
def get_invoice_by_number (d : AldoData) (ident : Ident) (cfg : Config) :
    Except Unit (Option InvoiceRec) :=
  match parse_invoice_ident cfg ident with
  | .valueErr => .error ()
  | .badForm => .ok none
  | .ok k => .ok (dictGet? d.confirmed_invoices (pyIntStr k))

/-! ### Config operations (src/aldo/config.py) -/

/-- Left-pad a character list with zero characters to width `w`
(Python format spec `0Nd`). -/
def padZeros (w : Nat) (l : List Char) : List Char :=
  List.replicate (w - l.length) (Char.ofNat 48) ++ l

/-- Python `f"{n:04d}"`: minimum width four, sign included in the
width. -/
def pyFmt04d (n : Int) : String :=
  if n < 0 then String.mk (Char.ofNat 45 :: padZeros 3 (pyNatChars n.natAbs))
  else String.mk (padZeros 4 (pyNatChars n.natAbs))

/-- config.py get_next_invoice_number (lines 78-84): returns the
prefixed zero-padded current number AND increments the stored
`next_number` by 10, persisting the config.  Note this method takes no
arguments besides self. -/
def Config.get_next_invoice_number (c : Config) : String × Config :=
  (c.pfx ++ pyFmt04d c.next_number, { c with next_number := c.next_number + 10 })

/-! ### The generate-invoice command (src/aldo/core.py lines 121-318)

The CLI argument dispatch (lines 148-177) classifies the optional
argument: a string carrying the display prefix whose rest parses as an
int, or a bare int string, selects regenerate mode; otherwise the string
must parse as a date (aliases such as today resolve against `today`).
The two modes are embedded separately below; `generate_invoice_new`
takes the already-classified new-mode argument (`none`, or the end date
the caller requested), `regenerate_invoice` the already-parsed invoice
number. -/

inductive GenError where
  | noWorkInPeriod (s e : Date)
  | noWorkRecorded
  | typeErrorNextNumber
  deriving DecidableEq

/-- core.py lines 199-245, the billing-period computation of new-invoice
mode:
* end date: the requested date if given, else `today` (lines 200-212);
* when a confirmed invoice exists (lines 217-237): start is the day
  after its end date, the end date is unconditionally reset to `today`
  (line 223), then pushed to `start + 7` when `start ≥ today`
  (lines 226-227), and the period must contain at least one work entry
  (lines 233-237);
* otherwise (lines 238-245): start is the earliest entry date, failing
  when no entries exist; the end date keeps its requested-or-today
  value. -/
def compute_period (d : AldoData) (requestedEnd : Option Date) (today : Date) :
    Except GenError (Date × Date) :=
  let end0 : Date :=
    match requestedEnd with
    | none => today
    | some dt => dt
  match d.last_confirmed_invoice with
  | some li =>
    let start := li.end_date + 1
    let end1 := today
    let end2 := if start ≥ today then start + 7 else end1
    let test := get_work_entries d start end2
    if test.isEmpty then .error (.noWorkInPeriod start end2)
    else .ok (start, end2)
  | none =>
    match get_earliest_entry_date d with
    | none => .error .noWorkRecorded
    | some earliest => .ok (earliest, end0)

/-- core.py new-invoice mode (lines 199-254 and onward).  After the
period computation, line 251 executes
`config.get_next_invoice_number(increment=False)`, but
`Config.get_next_invoice_number` (config.py line 78) accepts no
`increment` argument, so the interpreter raises a `TypeError` there,
caught by the surrounding handler (lines 316-318).  No state was
mutated up to that point (`store_unconfirmed_invoice` is never reached;
indeed nothing in core.py calls it), so the state is returned
unchanged.  The ok payload type documents what a successful run would
have returned; no branch produces it. -/
def generate_invoice_new (d : AldoData) (requestedEnd : Option Date)
    (today : Date) (cfg : Config) :
    Except GenError (String × Date × Date × List WorkEntry) × AldoData :=
  match compute_period d requestedEnd today with
  | .error e => (.error e, d)
  | .ok _ => (.error .typeErrorNextNumber, d)

/-- The start-date rule of new-invoice mode in isolation (core.py lines
215-220 and 238-244): day after the last confirmed end date, else the
earliest logged entry date. -/
def propose_start_date (d : AldoData) : Option Date :=
  match d.last_confirmed_invoice with
  | some li => some (li.end_date + 1)
  | none => get_earliest_entry_date d

/-! ### Regenerate mode and the invoice generator -/

inductive RegenError where
  | notFound
  | noEntries
  deriving DecidableEq

/-- What regenerate mode produces, beyond the rendered PDF:
`display_number` is the prefixed zero-padded number echoed by core.py
line 196; `pdf_number` is the invoice number that
InvoiceGenerator.generate_invoice actually prints on the document
(drawn from the config counter, invoice.py line 83); `cfg` and `data`
are the configuration and ledger state after the run. -/
structure RegenOut where
  display_number : String
  pdf_number : String
  start_date : Date
  end_date : Date
  entries : List WorkEntry
  cfg : Config
  data : AldoData
  deriving DecidableEq

/-- invoice.py InvoiceGenerator.generate_invoice (lines 68-210),
state-relevant part: computes the total hours, then draws the invoice
number from `Config.get_next_invoice_number` (line 83), which increments
and persists the config counter.  The PDF layout itself is rendering
glue and is not modelled. -/
def InvoiceGenerator_generate (cfg : Config) (entries : List WorkEntry) :
    String × ℚ × Config :=
  let total := get_total_hours entries
  let numCfg := cfg.get_next_invoice_number
  (numCfg.1, total, numCfg.2)

/-- core.py regenerate mode (lines 179-196 and the shared tail 256-308):
look up the confirmed invoice (not-found prints an error and returns,
mutating nothing); take its stored period; when start > end, substitute
`today` for the end date with a warning (lines 289-292); fetch the
entries; an empty result prints a message and returns; otherwise the
generator renders the document, incrementing the config counter.
The first match arm is unreachable for integer identifiers
(`parse_invoice_ident cfg (.num n) = .ok n` definitionally) but is
required for totality. -/
def regenerate_invoice (d : AldoData) (n : Int) (today : Date) (cfg : Config) :
    Except RegenError RegenOut :=
  match get_invoice_by_number d (.num n) cfg with
  | .error _ => .error .notFound
  | .ok none => .error .notFound
  | .ok (some ci) =>
    let start := ci.start_date
    let end0 := ci.end_date
    let end1 := if start > end0 then today else end0
    let entries := get_work_entries d start end1
    if entries.isEmpty then .error .noEntries
    else
      let gen := InvoiceGenerator_generate cfg entries
      .ok ⟨cfg.pfx ++ pyFmt04d n, gen.1, start, end1, entries, gen.2.2, d⟩

/-! ### Shared lemmas about the embedded operations -/

theorem confirm_invoice_of_no_draft (d : AldoData) (cfg : Config) (i : Ident)
    (h : d.last_unconfirmed_invoice = none) :
    confirm_invoice d i cfg = (ConfirmRes.noDraft, d) := by
  unfold confirm_invoice
  rw [h]

theorem generate_invoice_new_fails (d : AldoData) (req : Option Date)
    (today : Date) (cfg : Config) :
    (∃ e, (generate_invoice_new d req today cfg).1 = Except.error e)
    ∧ (generate_invoice_new d req today cfg).2 = d := by
  unfold generate_invoice_new
  cases h : compute_period d req today with
  | error e => exact ⟨⟨e, rfl⟩, rfl⟩
  | ok p => exact ⟨⟨.typeErrorNextNumber, rfl⟩, rfl⟩

/-! ### Sample states used as concrete inputs -/

def c1Data : AldoData :=
  ⟨none, none, [], [⟨10, 3, "work", "t0"⟩]⟩

def c1Cfg : Config := ⟨"INV-", 1000, 50⟩

def c2Data : AldoData :=
  ⟨none, some ⟨"391", 1, 10⟩, [], [⟨5, 4, "dev", "t1"⟩]⟩

def c2Cfg : Config := ⟨"INV-", 1000, 50⟩

def c4Data : AldoData :=
  ⟨some ⟨"391", 1, 10⟩, none, [(("391" : String), ⟨"391", 1, 10⟩)], []⟩

def c10Data : AldoData :=
  ⟨none, some ⟨"391", 1, 10⟩, [], []⟩

def c10Cfg : Config := ⟨"INV-", 1000, 50⟩

/-! ### Claims -/

/-- C1: the claim states that after every successful proposeInvoice
(generate-invoice in new-invoice mode) the stored draft equals the
returned triple, and a second proposal overwrites it.  On the source this
is a code bug: new-invoice mode never succeeds and never writes the
draft slot at all — the period computation is followed at core.py line
251 by `config.get_next_invoice_number(increment=False)`, a call that
raises `TypeError` because the method accepts no such argument, and
`store_unconfirmed_invoice` has no caller anywhere in core.py.  This
theorem proves that every run of new-invoice mode returns an error and
leaves the ledger (and hence `get_last_unconfirmed_invoice`) unchanged,
and evaluates the flow at a concrete failing input. -/
theorem C1_propose_never_stores_draft :
    (∀ (d : AldoData) (req : Option Date) (today : Date) (cfg : Config),
      (∃ e, (generate_invoice_new d req today cfg).1 = Except.error e)
      ∧ (generate_invoice_new d req today cfg).2 = d
      ∧ get_last_unconfirmed_invoice (generate_invoice_new d req today cfg).2
          = get_last_unconfirmed_invoice d)
    ∧ generate_invoice_new c1Data (some 19) 15 c1Cfg
        = (Except.error GenError.typeErrorNextNumber, c1Data) := by
  constructor
  · intro d req today cfg
    obtain ⟨he, hs⟩ := generate_invoice_new_fails d req today cfg
    exact ⟨he, hs, by rw [hs]⟩
  · rfl

/-- C2: with a pending draft whose stored number is the canonical
decimal string of `k`, `confirm_invoice` on the integer identifier `n`
succeeds exactly when `n = k`; any other integer fails with the number
mismatch error and leaves the state unchanged; with no pending draft
(in particular immediately after a successful confirmation) it fails
with the no-draft error. -/
theorem C2_confirm_protocol :
    ∀ (d : AldoData) (cfg : Config) (u : InvoiceRec) (k n : Int),
      d.last_unconfirmed_invoice = some u →
      u.invoice_number = pyIntStr k →
      (((confirm_invoice d (.num n) cfg).1
          = ConfirmRes.ok ⟨pyIntStr k, u.start_date, u.end_date⟩) ↔ n = k)
      ∧ (n ≠ k →
          confirm_invoice d (.num n) cfg
            = (ConfirmRes.mismatch (pyIntStr k) (pyIntStr n), d))
      ∧ (∀ (d₀ : AldoData) (i : Ident), d₀.last_unconfirmed_invoice = none →
          confirm_invoice d₀ i cfg = (ConfirmRes.noDraft, d₀))
      ∧ (n = k →
          (confirm_invoice d (.num n) cfg).2.last_unconfirmed_invoice = none
          ∧ ∀ i : Ident,
              confirm_invoice (confirm_invoice d (.num n) cfg).2 i cfg
                = (ConfirmRes.noDraft, (confirm_invoice d (.num n) cfg).2)) := by
  intro d cfg u k n hd hu
  have hres : confirm_invoice d (.num n) cfg =
      (if pyIntStr n ≠ u.invoice_number then
        (ConfirmRes.mismatch u.invoice_number (pyIntStr n), d)
      else
        (ConfirmRes.ok ⟨pyIntStr n, u.start_date, u.end_date⟩,
          { d with
              confirmed_invoices :=
                dictInsert d.confirmed_invoices (pyIntStr n)
                  ⟨pyIntStr n, u.start_date, u.end_date⟩,
              last_confirmed_invoice :=
                some ⟨pyIntStr n, u.start_date, u.end_date⟩,
              last_unconfirmed_invoice := none })) := by
    unfold confirm_invoice
    rw [hd]
    rfl
  by_cases hnk : n = k
  · subst hnk
    have hcond : ¬ (pyIntStr n ≠ u.invoice_number) := by
      rw [hu]
      simp
    rw [if_neg hcond] at hres
    refine ⟨by simp [hres], fun h => absurd rfl h, ?_, ?_⟩
    · intro d₀ i h₀
      exact confirm_invoice_of_no_draft d₀ cfg i h₀
    · intro _
      refine ⟨by rw [hres], fun i => ?_⟩
      exact confirm_invoice_of_no_draft _ cfg i (by rw [hres])
  · have hne : pyIntStr n ≠ u.invoice_number := by
      rw [hu]
      exact fun h => hnk (pyIntStr_inj h)
    rw [if_pos hne] at hres
    refine ⟨?_, fun _ => by rw [hres, hu], ?_, fun h => absurd h hnk⟩
    · rw [hres]
      simp [hnk]
    · intro d₀ i h₀
      exact confirm_invoice_of_no_draft d₀ cfg i h₀

/-- Witness for C2 at a concrete mismatching input. -/
theorem C2_confirm_protocol_witness :
    confirm_invoice c2Data (.num 400) c2Cfg
      = (ConfirmRes.mismatch (pyIntStr 391) (pyIntStr 400), c2Data) :=
  (C2_confirm_protocol c2Data c2Cfg ⟨"391", 1, 10⟩ 391 400 rfl rfl).2.1
    (by decide)

/-- C4: the claim states that `nextInvoiceNumber` returns the last
confirmed number plus 10 (391 when no confirmed invoice exists) and that
every successful proposal assigns its number through it, making the
first invoice number 391.  The first half holds of
storage.py get_next_invoice_number; the second half is a code bug: the
proposal flow draws its number from the config counter via a call that
always raises `TypeError` (core.py line 251), so no proposal ever
succeeds and storage.py get_next_invoice_number has no caller in
core.py; in particular no first invoice numbered 391 is ever produced. -/
theorem C4_next_number_scheme_vs_flow :
    (∀ d : AldoData, d.last_confirmed_invoice = none →
      get_next_invoice_number d = some 391)
    ∧ (∀ (d : AldoData) (lc : InvoiceRec) (k : Int),
        d.last_confirmed_invoice = some lc →
        pyToInt? lc.invoice_number = some k →
        get_next_invoice_number d = some (k + 10))
    ∧ (∀ (d : AldoData) (req : Option Date) (today e0 : Date) (cfg : Config),
        d.last_confirmed_invoice = none →
        get_earliest_entry_date d = some e0 →
        (generate_invoice_new d req today cfg).1
          = Except.error GenError.typeErrorNextNumber) := by
  refine ⟨?_, ?_, ?_⟩
  · intro d h
    unfold get_next_invoice_number
    rw [h]
  · intro d lc k h hk
    simp [get_next_invoice_number, h, hk]
  · intro d req today e0 cfg h he
    unfold generate_invoice_new compute_period
    rw [h, he]

/-- Witness for C4 at concrete inputs: base number on a virgin ledger,
stepped number after a confirmed invoice, and the failing proposal. -/
theorem C4_next_number_scheme_vs_flow_witness :
    get_next_invoice_number c1Data = some 391
    ∧ get_next_invoice_number c4Data = some 401
    ∧ (generate_invoice_new c1Data none 15 c1Cfg).1
        = Except.error GenError.typeErrorNextNumber :=
  ⟨C4_next_number_scheme_vs_flow.1 c1Data rfl,
   C4_next_number_scheme_vs_flow.2.1 c4Data ⟨"391", 1, 10⟩ 391 rfl rfl,
   C4_next_number_scheme_vs_flow.2.2 c1Data none 15 10 c1Cfg rfl rfl⟩

/-- C10: with a pending draft, an identifier string that neither starts
with the configured display prefix nor parses as an integer makes
confirm_invoice return False — no exception, no state change, no named
error condition. -/
theorem C10_malformed_identifier :
    ∀ (d : AldoData) (cfg : Config) (u : InvoiceRec) (s : String),
      d.last_unconfirmed_invoice = some u →
      pyStartsWith s cfg.pfx = false →
      pyToInt? s = none →
      confirm_invoice d (.str s) cfg = (ConfirmRes.returnedFalse, d) := by
  intro d cfg u s hd hpre hint
  simp [confirm_invoice, hd, parse_invoice_ident, hpre, hint]

/-- Witness for C10 at a concrete malformed identifier. -/
theorem C10_malformed_identifier_witness :
    confirm_invoice c10Data (.str "oops") c10Cfg
      = (ConfirmRes.returnedFalse, c10Data) :=
  C10_malformed_identifier c10Data c10Cfg ⟨"391", 1, 10⟩ "oops" rfl rfl rfl

def c3Data : AldoData :=
  ⟨none, some ⟨"391", 1, 10⟩, [], [⟨5, 4, "dev", "t1"⟩]⟩

def c3Cfg : Config := ⟨"INV-", 1000, 50⟩

/-- C3: the claim states that after every successful confirmation the
next proposal starts the day after the confirmed end date, and concludes
that consecutive confirmed periods are gapless.  The start-date rule
holds (proved below both for the concrete post-confirmation state and
for any state with a last confirmed invoice), but the gapless conclusion
is a code bug: the proposal flow can never store the draft that the next
confirmation would need (see C1), so the cycle that would enforce
gaplessness cannot complete — proved below by showing every
post-confirmation proposal fails and leaves the state unchanged. -/
theorem C3_gapless_start_but_broken_cycle :
    ∀ (d : AldoData) (cfg : Config) (u : InvoiceRec) (k : Int),
      d.last_unconfirmed_invoice = some u →
      u.invoice_number = pyIntStr k →
      ((confirm_invoice d (.num k) cfg).1
          = ConfirmRes.ok ⟨pyIntStr k, u.start_date, u.end_date⟩)
      ∧ get_last_confirmed_invoice (confirm_invoice d (.num k) cfg).2
          = some ⟨pyIntStr k, u.start_date, u.end_date⟩
      ∧ propose_start_date (confirm_invoice d (.num k) cfg).2
          = some (u.end_date + 1)
      ∧ (∀ (d' : AldoData) (lc : InvoiceRec),
          get_last_confirmed_invoice d' = some lc →
          propose_start_date d' = some (lc.end_date + 1))
      ∧ (∀ (req : Option Date) (today : Date) (cfg' : Config),
          (∃ e, (generate_invoice_new (confirm_invoice d (.num k) cfg).2
                    req today cfg').1 = Except.error e)
          ∧ (generate_invoice_new (confirm_invoice d (.num k) cfg).2
                req today cfg').2 = (confirm_invoice d (.num k) cfg).2) := by
  intro d cfg u k hd hu
  have hres : confirm_invoice d (.num k) cfg =
      (ConfirmRes.ok ⟨pyIntStr k, u.start_date, u.end_date⟩,
        { d with
            confirmed_invoices :=
              dictInsert d.confirmed_invoices (pyIntStr k)
                ⟨pyIntStr k, u.start_date, u.end_date⟩,
            last_confirmed_invoice :=
              some ⟨pyIntStr k, u.start_date, u.end_date⟩,
            last_unconfirmed_invoice := none }) := by
    unfold confirm_invoice
    rw [hd]
    have hcond : ¬ (pyIntStr k ≠ u.invoice_number) := by
      rw [hu]
      simp
    simp only [parse_invoice_ident]
    rw [if_neg hcond]
  refine ⟨by rw [hres], by rw [hres]; rfl, by rw [hres]; rfl, ?_, ?_⟩
  · intro d' lc hlc
    unfold propose_start_date
    unfold get_last_confirmed_invoice at hlc
    rw [hlc]
  · intro req today cfg'
    exact generate_invoice_new_fails _ req today cfg'

/-- Witness for C3: confirming draft 391 with period 1..10 makes the
next proposal compute start date 11 and still fail. -/
theorem C3_gapless_start_but_broken_cycle_witness :
    propose_start_date (confirm_invoice c3Data (.num 391) c3Cfg).2 = some 11 :=
  (C3_gapless_start_but_broken_cycle c3Data c3Cfg ⟨"391", 1, 10⟩ 391
    rfl rfl).2.2.1

def c5Data : AldoData :=
  ⟨some ⟨"391", 1, 10⟩, none, [(("391" : String), ⟨"391", 1, 10⟩)],
    [⟨12, 5, "w", "t"⟩]⟩

def c5Data2 : AldoData :=
  ⟨some ⟨"391", 1, 20⟩, none, [(("391" : String), ⟨"391", 1, 20⟩)],
    [⟨22, 5, "w", "t"⟩]⟩

/-- C5 counterexample: the claim states the end date is the requested
one whenever supplied and valid, and that the seven-day look-ahead
applies only when no confirmed invoice exists.  On the source, with a
confirmed invoice ending on day 10, today 15 and requested end 30
(valid: after the computed start 11), the computed period is (11, 15) —
the requested end date is discarded in favour of today (core.py line
223); and with a confirmed invoice ending on day 20 the look-ahead
yields (21, 28) even though a confirmed invoice exists and an end date
was requested. -/
theorem C5_counterexample_end_date :
    (compute_period c5Data (some 30) 15 = Except.ok (11, 15)
      ∧ (15 : Date) ≠ 30)
    ∧ (compute_period c5Data2 (some 30) 15 = Except.ok (21, 28)
      ∧ (28 : Date) ≠ 30) :=
  ⟨⟨rfl, by decide⟩, ⟨rfl, by decide⟩⟩

/-- C5 amended: the requested end date (today when none is requested) is
honoured only when no confirmed invoice exists; when a confirmed invoice
exists the requested end date is ignored — the end date is today, or
start + 7 when start ≥ today. -/
theorem C5_amended_end_date_rule :
    ∀ (d : AldoData) (req : Option Date) (today s e : Date),
      compute_period d req today = Except.ok (s, e) →
      (d.last_confirmed_invoice = none → e = req.getD today)
      ∧ (∀ lc : InvoiceRec, d.last_confirmed_invoice = some lc →
          s = lc.end_date + 1
          ∧ e = (if today ≤ s then s + 7 else today)) := by
  intro d req today s e h
  cases hlc : d.last_confirmed_invoice with
  | none =>
    refine ⟨fun _ => ?_, fun lc hlc' => ?_⟩
    · unfold compute_period at h
      rw [hlc] at h
      cases hearliest : get_earliest_entry_date d with
      | none =>
        rw [hearliest] at h
        exact Except.noConfusion h
      | some e0 =>
        rw [hearliest] at h
        cases req <;> simp_all
    · exact Option.noConfusion hlc'
  | some li =>
    have hstep : compute_period d req today =
        (if (get_work_entries d (li.end_date + 1)
              (if li.end_date + 1 ≥ today then li.end_date + 1 + 7 else today)).isEmpty
          then Except.error (.noWorkInPeriod (li.end_date + 1)
              (if li.end_date + 1 ≥ today then li.end_date + 1 + 7 else today))
          else Except.ok (li.end_date + 1,
              if li.end_date + 1 ≥ today then li.end_date + 1 + 7 else today)) := by
      unfold compute_period
      rw [hlc]
    rw [hstep] at h
    by_cases hempty : (get_work_entries d (li.end_date + 1)
        (if li.end_date + 1 ≥ today then li.end_date + 1 + 7 else today)).isEmpty
    · rw [if_pos hempty] at h
      exact Except.noConfusion h
    · rw [if_neg hempty] at h
      have hse : li.end_date + 1 = s
          ∧ (if li.end_date + 1 ≥ today then li.end_date + 1 + 7 else today) = e := by
        simpa using h
      refine ⟨fun hnone => ?_, fun lc hlc' => ?_⟩
      · exact Option.noConfusion hnone
      · injection hlc' with hlc''
        subst hlc''
        refine ⟨hse.1.symm, ?_⟩
        rw [← hse.2, ← hse.1]

/-- Witness for C5 amended, at the confirmed-invoice sample: start is
the day after the confirmed end date, end is today (start before
today). -/
theorem C5_amended_end_date_rule_witness :
    (11 : Date) = 10 + 1
    ∧ (15 : Date) = (if (15 : Date) ≤ 11 then 11 + 7 else 15) :=
  (C5_amended_end_date_rule c5Data (some 30) 15 11 15 rfl).2 ⟨"391", 1, 10⟩ rfl

def c6Data : AldoData :=
  ⟨none, none, [], [⟨10, 3, "work", "t0"⟩]⟩

def c6Cfg : Config := ⟨"INV-", 1000, 50⟩

def c6Data2 : AldoData :=
  ⟨some ⟨"391", 20, 10⟩, none, [(("391" : String), ⟨"391", 20, 10⟩)],
    [⟨25, 2, "w", "t"⟩]⟩

/-- C6 counterexample: the claim states the flow fails with a distinct
invalid-range error whenever start > end and never substitutes a
default.  On the source, in new-invoice mode with earliest entry day 10
and requested end 5 the computed period is (10, 5) with start > end, and
the run fails with the TypeError of the number-assignment call — no
range error exists in the code; and in the shared generation tail
(reached when regenerating a stored period with start 20 > end 10,
today 30) the end date is silently replaced by today and generation
succeeds. -/
theorem C6_counterexample_range :
    (compute_period c6Data (some 5) 15 = Except.ok (10, 5)
      ∧ generate_invoice_new c6Data (some 5) 15 c6Cfg
          = (Except.error GenError.typeErrorNextNumber, c6Data))
    ∧ regenerate_invoice c6Data2 391 30 c6Cfg
        = Except.ok ⟨"INV-0391", "INV-1000", 20, 30, [⟨25, 2, "w", "t"⟩],
            ⟨"INV-", 1010, 50⟩, c6Data2⟩ :=
  ⟨⟨rfl, rfl⟩, rfl⟩

/-- C6 amended: the flow never raises a range error — in new-invoice
mode every run fails earlier (at the number-assignment TypeError or an
empty-period check), and in the shared tail a stored start after end is
downgraded with a warning by substituting today as the end date, after
which generation proceeds whenever entries exist in the widened
range. -/
theorem C6_amended_range_handling :
    (∀ (d : AldoData) (req : Option Date) (today : Date) (cfg : Config),
      ∃ e, (generate_invoice_new d req today cfg).1 = Except.error e)
    ∧ (∀ (d : AldoData) (n : Int) (today : Date) (cfg : Config)
        (ci : InvoiceRec),
        get_invoice_by_number d (.num n) cfg = Except.ok (some ci) →
        ci.end_date < ci.start_date →
        (get_work_entries d ci.start_date today).isEmpty = false →
        ∃ out : RegenOut, regenerate_invoice d n today cfg = Except.ok out
          ∧ out.start_date = ci.start_date ∧ out.end_date = today) := by
  constructor
  · intro d req today cfg
    exact (generate_invoice_new_fails d req today cfg).1
  · intro d n today cfg ci hlook hrange hne
    have hsub : (if ci.start_date > ci.end_date then today else ci.end_date)
        = today := if_pos hrange
    have hstep : regenerate_invoice d n today cfg =
        (if (get_work_entries d ci.start_date
              (if ci.start_date > ci.end_date then today else ci.end_date)).isEmpty
          then Except.error RegenError.noEntries
          else Except.ok ⟨cfg.pfx ++ pyFmt04d n,
              (InvoiceGenerator_generate cfg (get_work_entries d ci.start_date
                (if ci.start_date > ci.end_date then today else ci.end_date))).1,
              ci.start_date,
              (if ci.start_date > ci.end_date then today else ci.end_date),
              get_work_entries d ci.start_date
                (if ci.start_date > ci.end_date then today else ci.end_date),
              (InvoiceGenerator_generate cfg (get_work_entries d ci.start_date
                (if ci.start_date > ci.end_date then today else ci.end_date))).2.2,
              d⟩) := by
      unfold regenerate_invoice
      rw [hlook]
    rw [hsub] at hstep
    rw [hstep]
    rw [if_neg (by rw [hne]; exact Bool.false_ne_true)]
    exact ⟨_, rfl, rfl, rfl⟩

/-- Witness for C6 amended, at the concrete regenerate sample. -/
theorem C6_amended_range_handling_witness :
    ∃ out : RegenOut, regenerate_invoice c6Data2 391 30 c6Cfg = Except.ok out
      ∧ out.start_date = 20 ∧ out.end_date = 30 :=
  C6_amended_range_handling.2 c6Data2 391 30 c6Cfg ⟨"391", 20, 10⟩ rfl
    (by decide) rfl

def c7Data : AldoData :=
  ⟨some ⟨"391", 1, 10⟩, none, [(("391" : String), ⟨"391", 1, 10⟩)],
    [⟨5, 4, "dev", "t1"⟩]⟩

def c7Cfg : Config := ⟨"INV-", 1000, 50⟩

/-- C7: the claim states that regenerating a confirmed invoice returns
its stored period and entries without mutating any state, the
invoice-number counter included.  On the source this is a code bug:
regeneration does return the stored period and entries and leaves the
ledger untouched, but the generator draws a fresh number from
`Config.get_next_invoice_number` (invoice.py line 83), incrementing and
persisting the config counter from 1000 to 1010 (and printing INV-1000,
not the regenerated number, on the document); an unknown number is
reported as not found without any state change. -/
theorem C7_regenerate_mutates_counter :
    regenerate_invoice c7Data 391 15 c7Cfg
      = Except.ok ⟨"INV-0391", "INV-1000", 1, 10, [⟨5, 4, "dev", "t1"⟩],
          ⟨"INV-", 1010, 50⟩, c7Data⟩
    ∧ (⟨"INV-", 1010, 50⟩ : Config).next_number ≠ c7Cfg.next_number
    ∧ regenerate_invoice c7Data 999 15 c7Cfg = Except.error RegenError.notFound :=
  ⟨rfl, by decide, rfl⟩

/-! ### C8: sequences of log_work calls -/

/-- One call of the log operation: its arguments plus the timestamp the
call would record. -/
structure LogCall where
  date : Date
  hours : ℚ
  description : String
  now_ts : String
  deriving DecidableEq

/-- Run a sequence of log_work calls against a ledger state. -/
def applyLogs (d : AldoData) (cs : List LogCall) : AldoData :=
  cs.foldl (fun s c => (log_work s c.date c.hours c.description c.now_ts).2) d

/-- The last call in the sequence for a given date, if any. -/
def lastFor? : List LogCall → Date → Option LogCall
  | [], _ => none
  | c :: rest, dt =>
    match lastFor? rest dt with
    | some c' => some c'
    | none => if c.date = dt then some c else none

theorem filter_ne_then_eq (l : List WorkEntry) (a dt : Date) :
    (l.filter (fun e => e.date != a)).filter (fun e => e.date == dt)
      = (if a = dt then [] else l.filter (fun e => e.date == dt)) := by
  by_cases hadt : a = dt
  · subst hadt
    simp only [if_pos rfl]
    induction l with
    | nil => rfl
    | cons x xs ih =>
      by_cases hx : x.date = a <;>
        simp [List.filter_cons, hx, ih]
  · simp only [if_neg hadt]
    have hdta : ¬ dt = a := fun h => hadt h.symm
    induction l with
    | nil => rfl
    | cons x xs ih =>
      by_cases hx : x.date = a
      · have hxdt : ¬ x.date = dt := by rw [hx]; exact hadt
        simp [List.filter_cons, hx, hxdt, hadt, hdta, ih]
      · by_cases hxdt : x.date = dt <;>
          simp [List.filter_cons, hx, hxdt, hadt, hdta, ih]

theorem filter_log_work_state (d : AldoData) (c : LogCall) (dt : Date) :
    ((log_work d c.date c.hours c.description c.now_ts).2).work_entries.filter
        (fun e => e.date == dt)
      = (if c.date = dt
          then [mkWorkEntry c.date c.hours c.description c.now_ts]
          else d.work_entries.filter (fun e => e.date == dt)) := by
  unfold log_work
  simp only
  rw [List.filter_append, filter_ne_then_eq]
  by_cases h : c.date = dt <;> simp [h, mkWorkEntry]

theorem filter_applyLogs_no_call (cs : List LogCall) (dt : Date) :
    ∀ d : AldoData, (∀ c ∈ cs, c.date ≠ dt) →
      (applyLogs d cs).work_entries.filter (fun e => e.date == dt)
        = d.work_entries.filter (fun e => e.date == dt) := by
  induction cs with
  | nil => intro d _; rfl
  | cons c rest ih =>
    intro d h
    have hc : c.date ≠ dt := h c (by simp)
    have hstep : applyLogs d (c :: rest)
        = applyLogs ((log_work d c.date c.hours c.description c.now_ts).2) rest := rfl
    rw [hstep, ih _ (fun x hx => h x (by simp [hx])), filter_log_work_state,
      if_neg hc]

theorem lastFor?_eq_none (cs : List LogCall) (dt : Date)
    (h : lastFor? cs dt = none) : ∀ c ∈ cs, c.date ≠ dt := by
  induction cs with
  | nil => simp
  | cons c rest ih =>
    intro x hx
    unfold lastFor? at h
    cases hrest : lastFor? rest dt with
    | some c' =>
      rw [hrest] at h
      exact Option.noConfusion h
    | none =>
      rw [hrest] at h
      by_cases hc : c.date = dt
      · rw [if_pos hc] at h
        exact Option.noConfusion h
      · rcases List.mem_cons.1 hx with rfl | hmem
        · exact hc
        · exact ih hrest x hmem

/-- C8: after any sequence of log_work calls (all with positive hours),
the stored entries for a date `dt` that was logged form exactly the
one-element list holding the hours, description and timestamp of the
last call for `dt` — earlier calls for the same date leave no trace. -/
theorem C8_log_work_last_write_wins :
    ∀ (cs : List LogCall) (d : AldoData) (dt : Date) (c : LogCall),
      (∀ x ∈ cs, 0 < x.hours) →
      lastFor? cs dt = some c →
      (applyLogs d cs).work_entries.filter (fun e => e.date == dt)
        = [mkWorkEntry dt c.hours c.description c.now_ts] := by
  intro cs
  induction cs with
  | nil =>
    intro d dt c _ h
    exact Option.noConfusion h
  | cons x rest ih =>
    intro d dt c hp hl
    unfold lastFor? at hl
    have hstep : applyLogs d (x :: rest)
        = applyLogs ((log_work d x.date x.hours x.description x.now_ts).2) rest := rfl
    cases hrest : lastFor? rest dt with
    | some c' =>
      rw [hrest] at hl
      injection hl with hl'
      rw [hstep, ← hl']
      exact ih _ dt c' (fun y hy => hp y (by simp [hy])) hrest
    | none =>
      rw [hrest] at hl
      by_cases hx : x.date = dt
      · rw [if_pos hx] at hl
        injection hl with hl'
        subst hl'
        rw [hstep,
          filter_applyLogs_no_call rest dt _ (lastFor?_eq_none rest dt hrest),
          filter_log_work_state, if_pos hx, hx]
      · rw [if_neg hx] at hl
        exact Option.noConfusion hl

def c8Data : AldoData := ⟨none, none, [], []⟩

def c8Calls : List LogCall :=
  [⟨7, 2, "first", "ta"⟩, ⟨8, 1, "other", "tb"⟩, ⟨7, 5, "second", "tc"⟩]

/-- Witness for C8: logging day 7 twice (with a day 8 entry in between)
leaves exactly the second day-7 entry. -/
theorem C8_log_work_last_write_wins_witness :
    (applyLogs c8Data c8Calls).work_entries.filter (fun e => e.date == 7)
      = [mkWorkEntry 7 5 "second" "tc"] :=
  C8_log_work_last_write_wins c8Calls c8Data 7 ⟨7, 5, "second", "tc"⟩
    (by decide) rfl

/-! ### C9: range queries -/

/-- C9: for all dates a ≤ b, the range query returns exactly the stored
entries whose date lies in [a, b] (a permutation of the filtered entry
list, in particular the same entries with the same multiplicities),
sorted ascending by date, and the empty list — not an error — when
nothing matches. -/
theorem C9_get_entries_range :
    ∀ (d : AldoData) (a b : Date), a ≤ b →
      (get_work_entries d a b).Perm
          (d.work_entries.filter
            (fun e => decide (a ≤ e.date) && decide (e.date ≤ b)))
      ∧ (get_work_entries d a b).Pairwise (fun x y => x.date ≤ y.date)
      ∧ (d.work_entries.filter
            (fun e => decide (a ≤ e.date) && decide (e.date ≤ b)) = [] →
          get_work_entries d a b = []) := by
  intro d a b _
  refine ⟨List.perm_insertionSort dateLe _, ?_, ?_⟩
  · exact List.sorted_insertionSort dateLe _
  · intro h
    unfold get_work_entries
    rw [h]
    rfl

def c9Data : AldoData :=
  ⟨none, none, [], [⟨12, 2, "later", "tx"⟩, ⟨5, 3, "earlier", "ty"⟩, ⟨20, 1, "out", "tz"⟩]⟩

/-- Witness for C9 on a concrete ledger and range. -/
theorem C9_get_entries_range_witness :
    (get_work_entries c9Data 4 13).Perm
        (c9Data.work_entries.filter
          (fun e => decide (4 ≤ e.date) && decide (e.date ≤ 13)))
    ∧ (get_work_entries c9Data 4 13).Pairwise (fun x y => x.date ≤ y.date)
    ∧ (c9Data.work_entries.filter
          (fun e => decide (4 ≤ e.date) && decide (e.date ≤ 13)) = [] →
        get_work_entries c9Data 4 13 = []) :=
  C9_get_entries_range c9Data 4 13 (by decide)
